import Mathlib

/-!
Shallow embedding of the Meowtivator quest logic core
(`src/utils/questHelpers.js` and the pure helpers of
`src/components/QuestManager.jsx`).

Modelling conventions:
* A JavaScript instant is an `Int` counting milliseconds since the Unix epoch.
* A JavaScript `Date` object is `JSDate`: a valid instant or the
  `Invalid Date` sentinel (internal time value `NaN`).
* The host local time zone is a fixed offset `off` (milliseconds), with
  local time = UTC time + `off`.  Daylight-saving transitions are not
  modelled; all local-calendar computations use this fixed offset.
* `Date.parse` on strings is host-dependent; it is passed around as an
  explicit function `parse : String → JSDate`.
* JavaScript `Math.floor(a / b)` and `a % b` for positive literal `b`
  are euclidean `/` and `%` on `Int` (floor division coincides with
  euclidean division when the divisor is positive).
-/

namespace Meowtivator

/-- A JavaScript `Date` value: a valid instant (ms since epoch) or the
`Invalid Date` sentinel whose internal time value is `NaN`. -/
inductive JSDate
  | valid (ms : Int)
  | invalid
  deriving DecidableEq

/-- A JavaScript value stored in a timestamp-bearing field: `null`,
`undefined`, a native `Date`, an external-store timestamp wrapper exposing
`toDate()` (whose result is the carried `JSDate`), a number, or a string. -/
inductive JSTimeValue
  | jsNull
  | jsUndefined
  | jsDate (d : JSDate)
  | jsTimestamp (conv : JSDate)
  | jsNumber (n : Int)
  | jsString (s : String)
  deriving DecidableEq

/-- JavaScript falsiness of a `JSTimeValue` (`!value`): `null`, `undefined`,
the number `0` and the empty string are falsy; objects (dates, wrappers) and
all other numbers/strings are truthy. -/
def jsFalsy : JSTimeValue → Bool
  | .jsNull => true
  | .jsUndefined => true
  | .jsNumber n => n = 0
  | .jsString s => s = ""
  | _ => false

/-- The `new Date(n)` for a numeric argument: valid iff the magnitude is within
the ECMAScript time range of ±8,640,000,000,000,000 ms. -/
def dateFromNumber (n : Int) : JSDate :=
  if n.natAbs ≤ 8640000000000000 then .valid n else .invalid

/-- The `new Date(value)` for the values a timestamp field can hold:
`new Date(null)` is the epoch, `new Date(undefined)` is invalid, a `Date` is
cloned (same instant), a plain wrapper object stringifies to an unparseable
string (invalid), numbers and strings as usual. -/
def newDateFrom (parse : String → JSDate) : JSTimeValue → JSDate
  | .jsNull => .valid 0
  | .jsUndefined => .invalid
  | .jsDate d => d
  | .jsTimestamp _ => .invalid
  | .jsNumber n => dateFromNumber n
  | .jsString s => parse s

/-- The `coerceDate` (questHelpers.js):
`if (!value) return null; if (value instanceof Date) return value;
if (value.toDate && typeof value.toDate === "function") return value.toDate();
return new Date(value);` -/
def coerceDate (parse : String → JSDate) (v : JSTimeValue) : Option JSDate :=
  if jsFalsy v then none
  else match v with
    | .jsDate d => some d
    | .jsTimestamp conv => some conv
    | .jsNumber n => some (dateFromNumber n)
    | .jsString s => some (parse s)
    | .jsNull => none
    | .jsUndefined => none

/-- JavaScript `String.prototype.padStart(2, '0')`. -/
def padStart2 (s : String) : String :=
  String.mk (List.replicate (2 - s.length) '0') ++ s

/-- The `formatMs` (questHelpers.js): clamp to 0, then render `H:MM:SS` with
unpadded hours and two-digit minutes and seconds. -/
def formatMs (ms : Int) : String :=
  let totalSeconds := max 0 (ms / 1000)
  let hours := totalSeconds / 3600
  let minutes := totalSeconds % 3600 / 60
  let seconds := totalSeconds % 60
  toString hours ++ ":" ++ padStart2 (toString minutes) ++ ":" ++
    padStart2 (toString seconds)

/-- JavaScript `x || 0` on an optionally-present number field. -/
def orZero : Option Int → Int
  | some n => n
  | none => 0

/-- The user record carried in `weeklyStats.lowest`: its id, its possibly
missing `weekly_xp`, and its `fairness_threshold` when that field is a
number (`none` models a missing or non-numeric field). -/
structure LowestUser where
  id : String
  weekly_xp : Option Int
  fairness_threshold : Option Int
  deriving DecidableEq

/-- The `weeklyStats`: the externally precomputed `{ highest, lowest }`. -/
structure WeeklyStats where
  highest : Option Int
  lowest : Option LowestUser
  deriving DecidableEq

/-- Result record of `calculateXpWithFairness`. -/
structure XpResult where
  xpAward : Int
  fairnessApplied : Bool
  deriving DecidableEq

/-- The `Math.round(b * 1.5)` for an integer `b`: `Math.round(x) = ⌊x + 1/2⌋`,
and `1.5·b + 0.5 = (3b+1)/2` exactly. -/
def roundOneAndHalf (b : Int) : Int := (3 * b + 1) / 2

/-- The `calculateXpWithFairness` (questHelpers.js).  `targetUserId` is `none`
for a missing id; `some ""` models the falsy empty string. -/
def calculateXpWithFairness (targetUserId : Option String) (baseXp : Int)
    (weeklyStats : WeeklyStats) : XpResult :=
  let highestWeekly := orZero weeklyStats.highest
  match weeklyStats.lowest, targetUserId with
  | none, _ => ⟨baseXp, false⟩
  | some _, none => ⟨baseXp, false⟩
  | some low, some tid =>
    if tid = "" then ⟨baseXp, false⟩
    else
      let gap := highestWeekly - orZero low.weekly_xp
      let threshold := low.fairness_threshold.getD 1000
      let fairnessApplied := decide (low.id = tid) && decide (threshold < gap)
      { xpAward := if fairnessApplied then roundOneAndHalf baseXp else baseXp
        fairnessApplied := fairnessApplied }

/-- The user-progress fields written by `updateUserProgress`
(QuestManager.jsx). -/
structure UserProgress where
  total_xp : Int
  weekly_xp : Int
  star_coins : Int
  deriving DecidableEq

/-- The `updateUserProgress` (QuestManager.jsx), as the pure record it writes:
`total_xp` and `weekly_xp` are the prior values (`|| 0`) plus `xpDelta`,
and `star_coins = Math.floor(newTotal / 10)`. -/
def updateUserProgress (total_xp weekly_xp : Option Int) (xpDelta : Int) :
    UserProgress :=
  let baseTotal := orZero total_xp
  let baseWeekly := orZero weekly_xp
  let newTotal := baseTotal + xpDelta
  { total_xp := newTotal
    weekly_xp := baseWeekly + xpDelta
    star_coins := newTotal / 10 }

/-! ## Calendar model

The local calendar arithmetic of the JavaScript `Date` methods used by
QuestManager.jsx (`getFullYear`, `getMonth`, `getDate`, `getDay`,
`setHours(0,0,0,0)`, `setDate`, `setMonth`, `new Date(y, m, d)`), over a
fixed local-time offset `off` (ms).  `civilFromDays` maps a day number
(days since 1970-01-01) to the proleptic Gregorian `(year, month, day)`
via the exact Euclidean-affine decomposition (century, then year of
century); `daysFromCivil` is the inverse, linear in the day argument so
that out-of-range days roll over exactly as ECMAScript `MakeDay` does. -/

def msPerDay : Int := 86400000

def cfdEra (z : Int) : Int := (z + 719468) / 146097
def cfdDoe (z : Int) : Int := (z + 719468) - cfdEra z * 146097
def cfdC (z : Int) : Int := (4 * cfdDoe z + 3) / 146097
def cfdNc (z : Int) : Int := ((4 * cfdDoe z + 3) % 146097) / 4
def cfdYc (z : Int) : Int := (4 * cfdNc z + 3) / 1461
def cfdDoy (z : Int) : Int := ((4 * cfdNc z + 3) % 1461) / 4
def cfdYoe (z : Int) : Int := 100 * cfdC z + cfdYc z
def cfdMp (z : Int) : Int := (5 * cfdDoy z + 2) / 153
def cfdM (z : Int) : Int := cfdMp z + (if cfdMp z < 10 then 3 else -9)

/-- Day number (days since the epoch) to Gregorian `(year, month 1..12,
day 1..31)`, in the March-based era decomposition. -/
def civilFromDays (z : Int) : Int × Int × Int :=
  (cfdYoe z + cfdEra z * 400 + (if cfdM z ≤ 2 then 1 else 0), cfdM z,
   cfdDoy z - (153 * cfdMp z + 2) / 5 + 1)

def dfcY (y m : Int) : Int := y - (if m ≤ 2 then 1 else 0)
def dfcEra (y m : Int) : Int := dfcY y m / 400
def dfcYoe (y m : Int) : Int := dfcY y m - dfcEra y m * 400
def dfcDoy (m d : Int) : Int := (153 * (m + (if 2 < m then -3 else 9)) + 2) / 5 + d - 1
def dfcDoe (y m d : Int) : Int :=
  dfcYoe y m * 365 + dfcYoe y m / 4 - dfcYoe y m / 100 + dfcDoy m d

/-- Gregorian `(year, month 1..12, day)` to day number; linear in `d`. -/
def daysFromCivil (y m d : Int) : Int := dfcEra y m * 146097 + dfcDoe y m d - 719468

/-- Local day index of an instant: days since epoch of its local calendar day. -/
def localDayIndex (off t : Int) : Int := (t + off) / msPerDay

/-- Milliseconds elapsed since local midnight. -/
def localTimeOfDay (off t : Int) : Int := (t + off) % msPerDay

/-- Local `(year, month 1..12, day-of-month)` of an instant. -/
def localCivil (off t : Int) : Int × Int × Int := civilFromDays (localDayIndex off t)

/-- The `d.getFullYear()`. -/
def jsGetFullYear (off t : Int) : Int := (localCivil off t).1

/-- The `d.getMonth()` (0-based). -/
def jsGetMonth (off t : Int) : Int := (localCivil off t).2.1 - 1

/-- The `d.getDate()` (day of month, 1-based). -/
def jsGetDate (off t : Int) : Int := (localCivil off t).2.2

/-- The `d.getDay()` (day of week, 0 = Sunday; the epoch day was a Thursday). -/
def jsGetDay (off t : Int) : Int := (localDayIndex off t + 4) % 7

/-- ECMAScript `MakeDay(year, month, date)`: `month` is 0-based and may be
any integer (normalized into the year), `date` may be out of range and
rolls over linearly.  Returns the day number. -/
def makeDay (year month date : Int) : Int :=
  daysFromCivil (year + month / 12) (month % 12 + 1) date

/-- The `new Date(year, month, day)` (local midnight), including the
ECMAScript two-digit-year rule (0 ≤ year ≤ 99 means 1900 + year). -/
def jsNewDateYMD (off year month day : Int) : Int :=
  makeDay (if 0 ≤ year ∧ year ≤ 99 then year + 1900 else year) month day * msPerDay - off

/-- The `d.setDate(newDate)`: replace the local day-of-month (with rollover),
keeping the local year, month and time of day. -/
def jsSetDate (off t newDate : Int) : Int :=
  makeDay (localCivil off t).1 ((localCivil off t).2.1 - 1) newDate * msPerDay +
    localTimeOfDay off t - off

/-- The `d.setMonth(newMonth)`: replace the local 0-based month (with
normalization), keeping the local year base, day-of-month and time of day. -/
def jsSetMonth (off t newMonth : Int) : Int :=
  makeDay (localCivil off t).1 newMonth (localCivil off t).2.2 * msPerDay +
    localTimeOfDay off t - off

/-- The `startOfDay` (QuestManager.jsx): `new Date(date)`, `setHours(0,0,0,0)`,
`getTime()`.  An invalid date stays invalid (`getTime()` is `NaN`). -/
def startOfDay (off : Int) (parse : String → JSDate) (v : JSTimeValue) : JSDate :=
  match newDateFrom parse v with
  | .valid t => .valid (localDayIndex off t * msPerDay - off)
  | .invalid => .invalid

/-- JavaScript `a < b` on two date values; any comparison with `NaN`
(an invalid date) is false. -/
def jsDateLt : JSDate → JSDate → Bool
  | .valid a, .valid b => a < b
  | _, _ => false

/-- JavaScript `now >= d` where `now` is a valid instant; false when `d`
is invalid (`NaN` comparison). -/
def jsGe (now : Int) : JSDate → Bool
  | .valid t => t ≤ now
  | .invalid => false

/-- The `getWeekKey` (QuestManager.jsx) on a valid instant `t`:
`firstDayOfYear = new Date(getFullYear(t), 0, 1)`;
`pastDaysOfYear = (t - firstDayOfYear) / 86400000` (real-valued);
`week = Math.floor((pastDaysOfYear + firstDayOfYear.getDay() + 1) / 7)`;
result is `year + "-W" + week`.  The floor of the real-valued expression
equals integer floor division after clearing the denominator. -/
def getWeekKey (off t : Int) : String :=
  toString (jsGetFullYear off t) ++ "-W" ++
    toString ((t - jsNewDateYMD off (jsGetFullYear off t) 0 1 +
      (jsGetDay off (jsNewDateYMD off (jsGetFullYear off t) 0 1) + 1) * msPerDay) /
      (7 * msPerDay))

/-- The `getMonthKey` (QuestManager.jsx) on a valid instant. -/
def getMonthKey (off t : Int) : String :=
  toString (jsGetFullYear off t) ++ "-" ++ toString (jsGetMonth off t + 1)

/-- The `getWeekKey` on an arbitrary timestamp value (`new Date(date)` first);
an invalid date renders as `"NaN-WNaN"`. -/
def getWeekKeyV (off : Int) (parse : String → JSDate) (v : JSTimeValue) : String :=
  match newDateFrom parse v with
  | .valid t => getWeekKey off t
  | .invalid => "NaN-WNaN"

/-- The `getMonthKey` on an arbitrary timestamp value; an invalid date renders
as `"NaN-NaN"`. -/
def getMonthKeyV (off : Int) (parse : String → JSDate) (v : JSTimeValue) : String :=
  match newDateFrom parse v with
  | .valid t => getMonthKey off t
  | .invalid => "NaN-NaN"

/-! ## Quest model -/

/-- JavaScript `a || b` where `a` is an optionally-present string and the
empty string is falsy. -/
def strOrD (a : Option String) (b : String) : String :=
  match a with
  | some s => if s = "" then b else s
  | none => b

/-- JavaScript `a || b` on two strings. -/
def strOrS (a b : String) : String := if a = "" then b else a

/-- JavaScript `a || b` on two timestamp values. -/
def jsOrV (a b : JSTimeValue) : JSTimeValue := if jsFalsy a then b else a

/-- The fields of a quest record consumed by the due-ness logic (a
projection of the full quest document; the remaining fields are display
and provenance data that `isQuestDue` never reads). -/
structure Quest where
  isActive : Option Bool := none
  nextDueAt : JSTimeValue := .jsUndefined
  lastCompletedAt : JSTimeValue := .jsUndefined
  frequencyType : Option String := none
  frequency : Option String := none
  frequencyInterval : Option Int := none
  deriving DecidableEq

/-- The `isQuestDue` (QuestManager.jsx):
`if (quest.isActive === false) return false;`
`if (quest.nextDueAt) { const nextDue = coerceDate(quest.nextDueAt);
  return nextDue && now >= nextDue; }`
then the legacy fallback switch on
`quest.frequencyType || quest.frequency || "once"`. -/
def isQuestDue (off : Int) (parse : String → JSDate) (q : Quest) (now : Int) : Bool :=
  if q.isActive = some false then false
  else if jsFalsy q.nextDueAt = false then
    match coerceDate parse q.nextDueAt with
    | some nextDue => jsGe now nextDue
    | none => false
  else if strOrD q.frequencyType (strOrD q.frequency "once") = "once" then
    jsFalsy q.lastCompletedAt
  else if strOrD q.frequencyType (strOrD q.frequency "once") = "daily" then
    if jsFalsy q.lastCompletedAt then true
    else jsDateLt (startOfDay off parse q.lastCompletedAt)
      (startOfDay off parse (.jsDate (.valid now)))
  else if strOrD q.frequencyType (strOrD q.frequency "once") = "weekly" then
    if jsFalsy q.lastCompletedAt then true
    else getWeekKeyV off parse (.jsDate (.valid now)) ≠
      getWeekKeyV off parse q.lastCompletedAt
  else if strOrD q.frequencyType (strOrD q.frequency "once") = "monthly" then
    if jsFalsy q.lastCompletedAt then true
    else getMonthKeyV off parse (.jsDate (.valid now)) ≠
      getMonthKeyV off parse q.lastCompletedAt
  else true

/-- The `calculateNextDueAt` (QuestManager.jsx): `fromDate` is a valid instant
(`new Date(fromDate)` clones it), then `setDate` / `setMonth` calendar
arithmetic per frequency type. -/
def calculateNextDueAt (off : Int) (frequencyType : String) (frequencyInterval : Int)
    (fromDate : Int) : Int :=
  if frequencyType = "once" then fromDate
  else if frequencyType = "daily" then
    jsSetDate off fromDate (jsGetDate off fromDate + frequencyInterval)
  else if frequencyType = "weekly" then
    jsSetDate off fromDate (jsGetDate off fromDate + frequencyInterval * 7)
  else if frequencyType = "monthly" then
    jsSetMonth off fromDate (jsGetMonth off fromDate + frequencyInterval)
  else fromDate

/-- The `getDueDateFromNow` (questHelpers.js): millisecond arithmetic for
days/weeks, `setMonth` for months, the base date for `once` and the
default case. -/
def getDueDateFromNow (off : Int) (unit : String) (interval : Int)
    (fromDate : Int) : Int :=
  if unit = "days" then fromDate + interval * 24 * 60 * 60 * 1000
  else if unit = "weeks" then fromDate + interval * 7 * 24 * 60 * 60 * 1000
  else if unit = "months" then
    jsSetMonth off fromDate (jsGetMonth off fromDate + interval)
  else fromDate

/-- The fields of a raw quest document read by of `normalizeQuestDoc` for the
due-ness-relevant normalization (a projection: title, difficulty, XP and
provenance fields are not modelled since no claim consumes them). -/
structure QuestDoc where
  frequencyType : Option String := none
  frequency : Option String := none
  frequencyInterval : Option Int := none
  lastCompletedAt : JSTimeValue := .jsUndefined
  last_completed_at : JSTimeValue := .jsUndefined
  last_completed : JSTimeValue := .jsUndefined
  nextDueAt : JSTimeValue := .jsUndefined
  isActive : Option Bool := none
  deriving DecidableEq

/-- The `normalizeQuestDoc` (QuestManager.jsx), restricted to the due-ness
fields:
`frequencyType = docData.frequencyType || (docData.frequency === "once" ?
"once" : docData.frequency || "daily") || "daily"`;
`frequencyInterval = docData.frequencyInterval ?? 1`;
`lastCompletedAt = docData.lastCompletedAt || docData.last_completed_at ||
docData.last_completed || null`, then coerced when truthy;
`nextDueAt = docData.nextDueAt ? coerceDate(docData.nextDueAt) : null`;
`isActive = docData.isActive !== undefined ? docData.isActive : true`. -/
def normalizeQuestDoc (parse : String → JSDate) (d : QuestDoc) : Quest :=
  let ft := strOrS (strOrD d.frequencyType
    (match d.frequency with
     | some "once" => "once"
     | f => strOrD f "daily")) "daily"
  let rawLast := jsOrV d.lastCompletedAt (jsOrV d.last_completed_at
    (jsOrV d.last_completed .jsNull))
  let normalizedLast :=
    if jsFalsy rawLast = false then
      match coerceDate parse rawLast with
      | some dd => JSTimeValue.jsDate dd
      | none => JSTimeValue.jsNull
    else JSTimeValue.jsNull
  let nextDue :=
    if jsFalsy d.nextDueAt = false then
      match coerceDate parse d.nextDueAt with
      | some dd => JSTimeValue.jsDate dd
      | none => JSTimeValue.jsNull
    else JSTimeValue.jsNull
  { isActive := some (d.isActive.getD true)
    nextDueAt := nextDue
    lastCompletedAt := normalizedLast
    frequencyType := some ft
    frequency := d.frequency
    frequencyInterval := some (d.frequencyInterval.getD 1) }

/-- Claim-side month arithmetic for C4: the linear month index
`12 * year + (month - 1)` advances by exactly `n`; the day-of-month and
the local time of day are carried over unchanged, with day-of-month
overflow rolling into the following months by the linearity of
`daysFromCivil` in its day argument. -/
def advanceMonths (off n t : Int) : Int :=
  daysFromCivil ((12 * (localCivil off t).1 + ((localCivil off t).2.1 - 1) + n) / 12)
    ((12 * (localCivil off t).1 + ((localCivil off t).2.1 - 1) + n) % 12 + 1)
    (localCivil off t).2.2 * msPerDay + localTimeOfDay off t - off

/-! ## Calendar lemmas -/

/-- Correctness core of the Euclidean-affine year decomposition: for a day
of era in range, the century, year-of-century and day-of-year recovered by
the `(4x+3)/L` divisions satisfy the Gregorian day-count identity. -/
theorem eafCore (doe g nc yc doy : Int)
    (h0 : 0 ≤ doe) (h1 : doe ≤ 146096)
    (hg : g = (4 * doe + 3) / 146097)
    (hnc : nc = ((4 * doe + 3) % 146097) / 4)
    (hyc : yc = (4 * nc + 3) / 1461)
    (hdoy : doy = ((4 * nc + 3) % 1461) / 4) :
    0 ≤ g ∧ g ≤ 3 ∧ 0 ≤ yc ∧ yc ≤ 99 ∧ 0 ≤ doy ∧ doy ≤ 365 ∧
    365 * (100 * g + yc) + (100 * g + yc) / 4 - (100 * g + yc) / 100 + doy = doe := by
  have hgb : 0 ≤ g ∧ g ≤ 3 := by omega
  have hgs : g + (4 * doe + 3 - 146097 * g - 4 * nc) = 3 := by
    have hd : g + (4 * doe + 3 - 146097 * g - 4 * nc) - 3 =
        4 * (doe - 36524 * g - nc) := by ring
    omega
  have hycb : 0 ≤ yc ∧ yc ≤ 99 := by omega
  have htu : (4 * nc + 3 - 1461 * yc - 4 * doy) + yc % 4 = 3 := by
    have heq : (yc - yc % 4) / 4 = yc / 4 := by omega
    have hd : (4 * nc + 3 - 1461 * yc - 4 * doy) + yc % 4 - 3 =
        4 * (nc - 365 * yc - doy - (yc - yc % 4) / 4) - (yc - 4 * (yc / 4) - yc % 4)
          - 4 * ((yc - yc % 4) / 4 - (yc / 4)) := by
      rw [heq]; ring
    omega
  have hw : (100 * g + yc) % 4 = yc % 4 := by omega
  have hq100 : (100 * g + yc) / 100 = g := by omega
  have hq4 : (100 * g + yc) / 4 = 25 * g + (yc - yc % 4) / 4 := by omega
  refine ⟨hgb.1, hgb.2, hycb.1, hycb.2, by omega, by omega, by omega⟩

/-- The `daysFromCivil` splits into the era part and the year-of-era part when
the year-of-era is in range. -/
theorem dfc_decomp (era yoe m d : Int) (h1 : 0 ≤ yoe) (h2 : yoe ≤ 399) :
    daysFromCivil (yoe + era * 400 + (if m ≤ 2 then 1 else 0)) m d =
      era * 146097 + (365 * yoe + yoe / 4 - yoe / 100 + dfcDoy m d) - 719468 := by
  unfold daysFromCivil dfcDoe dfcYoe dfcEra dfcY
  split_ifs <;> omega

/-- The month/day-of-month compression and its inverse cancel on a
day-of-year in range, and yield a month in 1..12 and a day in 1..31. -/
theorem dfcDoy_cancel (doy mp : Int) (h1 : 0 ≤ doy) (h2 : doy ≤ 365)
    (hmp : mp = (5 * doy + 2) / 153) :
    dfcDoy (mp + (if mp < 10 then 3 else -9)) (doy - (153 * mp + 2) / 5 + 1) = doy ∧
    1 ≤ mp + (if mp < 10 then 3 else -9) ∧ mp + (if mp < 10 then 3 else -9) ≤ 12 ∧
    1 ≤ doy - (153 * mp + 2) / 5 + 1 ∧ doy - (153 * mp + 2) / 5 + 1 ≤ 31 := by
  unfold dfcDoy
  split_ifs <;> omega

/-- The `daysFromCivil` inverts `civilFromDays`, and the produced month and
day-of-month are in range. -/
theorem civilFromDays_spec (z y m d : Int) (h : civilFromDays z = (y, m, d)) :
    daysFromCivil y m d = z ∧ 1 ≤ m ∧ m ≤ 12 ∧ 1 ≤ d ∧ d ≤ 31 := by
  have h1 : y = cfdYoe z + cfdEra z * 400 + (if cfdM z ≤ 2 then 1 else 0) := by
    have := congrArg Prod.fst h; simpa [civilFromDays] using this.symm
  have h2 : m = cfdM z := by
    have := congrArg (fun p => p.2.1) h; simpa [civilFromDays] using this.symm
  have h3 : d = cfdDoy z - (153 * cfdMp z + 2) / 5 + 1 := by
    have := congrArg (fun p => p.2.2) h; simpa [civilFromDays] using this.symm
  have hdoe : 0 ≤ cfdDoe z ∧ cfdDoe z ≤ 146096 := by
    unfold cfdDoe cfdEra; omega
  have hcore := eafCore (cfdDoe z) (cfdC z) (cfdNc z) (cfdYc z) (cfdDoy z)
    hdoe.1 hdoe.2 rfl rfl rfl rfl
  obtain ⟨hg0, hg3, hyc0, hyc99, hdoy0, hdoy365, hident⟩ := hcore
  rw [show 100 * cfdC z + cfdYc z = cfdYoe z from rfl] at hident
  have hyoeb : 0 ≤ cfdYoe z ∧ cfdYoe z ≤ 399 := by
    rw [show cfdYoe z = 100 * cfdC z + cfdYc z from rfl]; omega
  have hcancel := dfcDoy_cancel (cfdDoy z) (cfdMp z) hdoy0 hdoy365 rfl
  subst h1 h2 h3
  rw [show cfdM z = cfdMp z + (if cfdMp z < 10 then 3 else -9) from rfl]
  rw [dfc_decomp _ _ _ _ hyoeb.1 hyoeb.2, hcancel.1]
  refine ⟨?_, hcancel.2.1, hcancel.2.2.1, hcancel.2.2.2.1, hcancel.2.2.2.2⟩
  have hdoeDef : cfdDoe z = (z + 719468) - cfdEra z * 146097 := rfl
  omega

/-- The `daysFromCivil` is linear in its day argument. -/
theorem daysFromCivil_add_day (y m d n : Int) :
    daysFromCivil y m (d + n) = daysFromCivil y m d + n := by
  unfold daysFromCivil dfcDoe dfcDoy
  ring

/-- The `setDate(getDate() + n)` advances a date by exactly `n` days (under a
fixed local-time offset). -/
theorem jsSetDate_add (off t n : Int) :
    jsSetDate off t (jsGetDate off t + n) = t + n * msPerDay := by
  unfold jsSetDate jsGetDate makeDay
  rcases hq : localCivil off t with ⟨y, m, dom⟩
  dsimp only
  obtain ⟨hrt, hm1, hm2, _, _⟩ := civilFromDays_spec (localDayIndex off t) y m dom hq
  have h12a : (m - 1) / 12 = 0 := by omega
  have h12b : (m - 1) % 12 = m - 1 := by omega
  rw [h12a, h12b, show y + (0 : Int) = y from by ring,
    show m - 1 + 1 = m from by ring, daysFromCivil_add_day, hrt]
  unfold localDayIndex localTimeOfDay msPerDay
  omega

/-- The `setMonth(getMonth() + n)` is exactly the linear-month-index advance
of `advanceMonths`. -/
theorem jsSetMonth_eq_advanceMonths (off t n : Int) :
    jsSetMonth off t (jsGetMonth off t + n) = advanceMonths off n t := by
  unfold jsSetMonth jsGetMonth advanceMonths makeDay
  rcases hq : localCivil off t with ⟨y, m, dom⟩
  dsimp only
  obtain ⟨_, hm1, hm2, _, _⟩ := civilFromDays_spec (localDayIndex off t) y m dom hq
  have e1 : y + (m - 1 + n) / 12 = (12 * y + (m - 1) + n) / 12 := by omega
  have e2 : (m - 1 + n) % 12 = (12 * y + (m - 1) + n) % 12 := by omega
  rw [e1, e2]

/-! ## Claim theorems -/

/-- Round half away from zero of `1.5 · b` for an integer `b`. -/
def roundHalfAwayFromZero15 (b : Int) : Int :=
  if 0 ≤ b then (3 * b + 1) / 2 else -((3 * (-b) + 1) / 2)

/-- For non-negative `b`, JavaScript `Math.round(b * 1.5)` is rounding
half away from zero. -/
theorem roundOneAndHalf_eq_away (b : Int) (h : 0 ≤ b) :
    roundOneAndHalf b = roundHalfAwayFromZero15 b := by
  unfold roundOneAndHalf roundHalfAwayFromZero15
  rw [if_pos h]

/-- C1: `calculateXpWithFairness` is the passthrough `(baseXp, false)` when
`weeklyStats.lowest` or `targetUserId` is absent (falsy); otherwise
`fairnessApplied` is `lowest.id === targetUserId` and
`highest - (lowest.weekly_xp || 0) > (numeric fairness_threshold or 1000)`,
and `xpAward` is `round(baseXp * 1.5)` (half away from zero) exactly when
fairness applies, else `baseXp`. -/
theorem calculateXpWithFairness_spec (targetUserId : Option String) (baseXp : Int)
    (stats : WeeklyStats) (hbase : 0 ≤ baseXp) :
    (stats.lowest = none ∨ targetUserId = none ∨ targetUserId = some "" →
      calculateXpWithFairness targetUserId baseXp stats = ⟨baseXp, false⟩) ∧
    (∀ low tid, stats.lowest = some low → targetUserId = some tid → tid ≠ "" →
      (calculateXpWithFairness targetUserId baseXp stats).fairnessApplied =
        (decide (low.id = tid) &&
          decide (low.fairness_threshold.getD 1000 <
            orZero stats.highest - orZero low.weekly_xp)) ∧
      (calculateXpWithFairness targetUserId baseXp stats).xpAward =
        (if (calculateXpWithFairness targetUserId baseXp stats).fairnessApplied
         then roundHalfAwayFromZero15 baseXp else baseXp)) := by
  constructor
  · intro h
    rcases h with h | h | h
    · unfold calculateXpWithFairness
      rw [h]
    · unfold calculateXpWithFairness
      rw [h]
      cases stats.lowest <;> rfl
    · unfold calculateXpWithFairness
      rw [h]
      cases stats.lowest with
      | none => rfl
      | some low => rfl
  · intro low tid hlow htid hne
    simp only [calculateXpWithFairness, hlow, htid, if_neg hne]
    cases hb : (decide (low.id = tid) &&
        decide (low.fairness_threshold.getD 1000 <
          orZero stats.highest - orZero low.weekly_xp)) with
    | false => simp [hb]
    | true => simp [hb, roundOneAndHalf_eq_away baseXp hbase]

/-- C1 witness: the passthrough arm at a concrete input. -/
theorem calculateXpWithFairness_spec_witness :
    calculateXpWithFairness none 100 { highest := some 2000, lowest := none } =
      ⟨100, false⟩ :=
  (calculateXpWithFairness_spec none 100
    { highest := some 2000, lowest := none } (by decide)).1 (Or.inl rfl)

/-- C5 counterexample: the numeric value `0` is falsy, so `coerceDate`
returns `null` for it, while `new Date(0)` is the valid epoch instant the
claim says it should be parsed to. -/
theorem coerceDate_zero_counterexample :
    coerceDate (fun _ => JSDate.invalid) (.jsNumber 0) = none ∧
    dateFromNumber 0 = JSDate.valid 0 := by
  exact ⟨rfl, rfl⟩

/-- C5 (amended): `coerceDate` maps every falsy value (null, undefined,
the number 0, the empty string) to `null`; a native `Date` is returned
as-is; a `toDate()` wrapper is converted; every other (truthy) number or
string is parsed as a date, a parse failure yielding the invalid-date
sentinel rather than an exception (the function is total). -/
theorem coerceDate_spec (parse : String → JSDate) (v : JSTimeValue) :
    (jsFalsy v = true → coerceDate parse v = none) ∧
    (∀ d, v = .jsDate d → coerceDate parse v = some d) ∧
    (∀ d, v = .jsTimestamp d → coerceDate parse v = some d) ∧
    (∀ n, v = .jsNumber n → n ≠ 0 → coerceDate parse v = some (dateFromNumber n)) ∧
    (∀ s, v = .jsString s → s ≠ "" → coerceDate parse v = some (parse s)) := by
  refine ⟨?_, ?_, ?_, ?_, ?_⟩
  · intro h
    unfold coerceDate
    rw [h]
    cases v <;> rfl
  · intro d h; subst h; rfl
  · intro d h; subst h; rfl
  · intro n h hn; subst h
    unfold coerceDate jsFalsy
    simp [hn]
  · intro s h hs; subst h
    unfold coerceDate jsFalsy
    simp [hs]

/-- C5 witness: a nonzero number is converted via `new Date(n)`. -/
theorem coerceDate_spec_witness :
    coerceDate (fun _ => JSDate.invalid) (.jsNumber 5) =
      some (dateFromNumber 5) :=
  (coerceDate_spec (fun _ => JSDate.invalid) (.jsNumber 5)).2.2.2.1 5 rfl (by decide)

/-- C6: `formatMs` clamps non-positive input to `"0:00:00"`; for
non-negative `ms` it renders unpadded hours `⌊ms/1000/3600⌋` and two-digit
minutes and seconds that lie in `[0, 59]`; and the three documented
examples hold. -/
theorem formatMs_spec (ms : Int) :
    (ms ≤ 0 → formatMs ms = "0:00:00") ∧
    (0 ≤ ms →
      formatMs ms =
        toString (ms / 1000 / 3600) ++ ":" ++
        padStart2 (toString (ms / 1000 % 3600 / 60)) ++ ":" ++
        padStart2 (toString (ms / 1000 % 60)) ∧
      0 ≤ ms / 1000 % 3600 / 60 ∧ ms / 1000 % 3600 / 60 ≤ 59 ∧
      0 ≤ ms / 1000 % 60 ∧ ms / 1000 % 60 ≤ 59) ∧
    formatMs 0 = "0:00:00" ∧ formatMs 3661000 = "1:01:01" ∧
    formatMs 59000 = "0:00:59" := by
  refine ⟨?_, ?_, rfl, rfl, rfl⟩
  · intro h
    have hmax : max 0 (ms / 1000) = 0 := by omega
    simp only [formatMs, hmax]
    rfl
  · intro h
    have hmax : max 0 (ms / 1000) = ms / 1000 := by omega
    refine ⟨?_, by omega, by omega, by omega, by omega⟩
    simp only [formatMs, hmax]

/-- C6 witness: the clamping arm at a concrete negative input. -/
theorem formatMs_spec_witness : formatMs (-5000) = "0:00:00" :=
  (formatMs_spec (-5000)).1 (by decide)

/-- C7: the record written by `updateUserProgress` adds `xpDelta` to the
prior totals (defaulting to 0 when missing) and re-establishes the
invariant `star_coins = ⌊total_xp / 10⌋`. -/
theorem updateUserProgress_spec (total_xp weekly_xp : Option Int) (xpDelta : Int) :
    updateUserProgress total_xp weekly_xp xpDelta =
      { total_xp := orZero total_xp + xpDelta
        weekly_xp := orZero weekly_xp + xpDelta
        star_coins := (orZero total_xp + xpDelta) / 10 } ∧
    (updateUserProgress total_xp weekly_xp xpDelta).star_coins =
      (updateUserProgress total_xp weekly_xp xpDelta).total_xp / 10 :=
  ⟨rfl, rfl⟩

/-- Helper: in the legacy daily branch with a valid completion date, the
quest is due iff the local calendar day of `now` is strictly after that of
the completion. -/
theorem isQuestDue_daily_lastValid (off : Int) (parse : String → JSDate)
    (q : Quest) (now t : Int)
    (hact : q.isActive ≠ some false)
    (hnda : jsFalsy q.nextDueAt = true)
    (hft : strOrD q.frequencyType (strOrD q.frequency "once") = "daily")
    (ht : q.lastCompletedAt = .jsDate (.valid t)) :
    (isQuestDue off parse q now = true ↔
      localDayIndex off t < localDayIndex off now) := by
  unfold isQuestDue
  rw [if_neg hact, if_neg (by simp [hnda]), if_neg (by simp [hft]), if_pos hft, ht]
  rw [if_neg (by simp [jsFalsy])]
  show jsDateLt (JSDate.valid (localDayIndex off t * msPerDay - off))
    (JSDate.valid (localDayIndex off now * msPerDay - off)) = true ↔ _
  unfold jsDateLt
  simp only [decide_eq_true_eq]
  unfold msPerDay
  omega

/-- Helper: in the legacy daily branch with a falsy completion field, the
quest is due. -/
theorem isQuestDue_daily_noLast (off : Int) (parse : String → JSDate)
    (q : Quest) (now : Int)
    (hact : q.isActive ≠ some false)
    (hnda : jsFalsy q.nextDueAt = true)
    (hft : strOrD q.frequencyType (strOrD q.frequency "once") = "daily")
    (hl : jsFalsy q.lastCompletedAt = true) :
    isQuestDue off parse q now = true := by
  unfold isQuestDue
  rw [if_neg hact, if_neg (by simp [hnda]), if_neg (by simp [hft]), if_pos hft,
    if_pos hl]

/-- C2: a quest with `isActive === false` is never due; otherwise, with a
set `nextDueAt` coercing to a valid instant, the quest is due iff
`now >= nextDueAt`, hence due-ness is monotone in `now`. -/
theorem isQuestDue_nextDueAt_spec (off : Int) (parse : String → JSDate)
    (q : Quest) (now t : Int) :
    (q.isActive = some false → isQuestDue off parse q now = false) ∧
    (q.isActive ≠ some false → jsFalsy q.nextDueAt = false →
      coerceDate parse q.nextDueAt = some (.valid t) →
      ((isQuestDue off parse q now = true ↔ t ≤ now) ∧
        ∀ later, now ≤ later → isQuestDue off parse q now = true →
          isQuestDue off parse q later = true)) := by
  constructor
  · intro h
    unfold isQuestDue
    rw [if_pos h]
  · intro hact hnd hcd
    have he : ∀ n : Int, isQuestDue off parse q n = decide (t ≤ n) := by
      intro n
      unfold isQuestDue
      rw [if_neg hact, if_pos hnd, hcd]
      rfl
    constructor
    · rw [he now]
      exact decide_eq_true_iff
    · intro later h12 hd
      rw [he now] at hd
      rw [he later]
      simp only [decide_eq_true_eq] at hd ⊢
      omega

/-- C2 witness. -/
theorem isQuestDue_nextDueAt_spec_witness :
    isQuestDue 0 (fun _ => JSDate.invalid)
      { isActive := some true, nextDueAt := .jsDate (.valid 1000) } 2000 = true :=
  (((isQuestDue_nextDueAt_spec 0 (fun _ => JSDate.invalid)
    { isActive := some true, nextDueAt := .jsDate (.valid 1000) } 2000 1000).2
    (by decide) (by decide) (by decide)).1).mpr (by decide)

/-- C3: an active quest with no `nextDueAt` and frequency resolving to
`daily` is due iff it has no (falsy) `lastCompletedAt`, or the local
calendar day of `now` is strictly after the calendar day of the valid
completion instant (same-day completion leaves it not due). -/
theorem isQuestDue_dailyLegacy_spec (off : Int) (parse : String → JSDate)
    (q : Quest) (now : Int)
    (hact : q.isActive ≠ some false)
    (hnda : jsFalsy q.nextDueAt = true)
    (hft : strOrD q.frequencyType (strOrD q.frequency "once") = "daily")
    (hlc : jsFalsy q.lastCompletedAt = true ∨
      ∃ t, q.lastCompletedAt = .jsDate (.valid t)) :
    (isQuestDue off parse q now = true ↔
      jsFalsy q.lastCompletedAt = true ∨
      ∃ t, q.lastCompletedAt = .jsDate (.valid t) ∧
        localDayIndex off t < localDayIndex off now) := by
  rcases hlc with h | ⟨t, ht⟩
  · rw [isQuestDue_daily_noLast off parse q now hact hnda hft h]
    simp [h]
  · rw [isQuestDue_daily_lastValid off parse q now t hact hnda hft ht, ht]
    simp [jsFalsy]

/-- C3 witness: completed yesterday, due today. -/
theorem isQuestDue_dailyLegacy_spec_witness :
    isQuestDue 0 (fun _ => JSDate.invalid)
      { isActive := some true, nextDueAt := .jsNull,
        frequencyType := some "daily",
        lastCompletedAt := .jsDate (.valid 0) } 86400000 = true := by
  have h := isQuestDue_dailyLegacy_spec 0 (fun _ => JSDate.invalid)
    { isActive := some true, nextDueAt := .jsNull,
      frequencyType := some "daily",
      lastCompletedAt := .jsDate (.valid 0) } 86400000
    (by decide) (by decide) (by decide) (Or.inr ⟨0, rfl⟩)
  exact h.mpr (Or.inr ⟨0, rfl, by decide⟩)

/-- C10: an active quest whose truthy `nextDueAt` coerces to the invalid
date (or to null) is not due — `now >= Invalid Date` is a `NaN` comparison
and yields false — and no exception is raised (the function is total);
the legacy `lastCompletedAt` branch is never consulted (the legacy fields of the quest are universally quantified here and do not affect the result). -/
theorem isQuestDue_invalidNextDue_spec (off : Int) (parse : String → JSDate)
    (q : Quest) (now : Int)
    (hact : q.isActive ≠ some false)
    (hnd : jsFalsy q.nextDueAt = false)
    (hcd : coerceDate parse q.nextDueAt = some JSDate.invalid ∨
      coerceDate parse q.nextDueAt = none) :
    isQuestDue off parse q now = false := by
  unfold isQuestDue
  rw [if_neg hact, if_pos hnd]
  rcases hcd with h | h
  · rw [h]; rfl
  · rw [h]

/-- C10 witness: an unparseable string in `nextDueAt`. -/
theorem isQuestDue_invalidNextDue_spec_witness :
    isQuestDue 0 (fun _ => JSDate.invalid)
      { isActive := some true, nextDueAt := .jsString "not-a-date",
        lastCompletedAt := .jsNull, frequencyType := some "daily" } 0 = false :=
  isQuestDue_invalidNextDue_spec 0 (fun _ => JSDate.invalid)
    { isActive := some true, nextDueAt := .jsString "not-a-date",
      lastCompletedAt := .jsNull, frequencyType := some "daily" } 0
    (by decide) (by decide) (Or.inl (by decide))

/-- C8 counterexample: a quest document carrying neither `frequencyType`
nor the deprecated `frequency` field is normalized by `normalizeQuestDoc`
to frequency `"daily"`, not `"once"`; consequently, with a completion
recorded on day 0 and no `nextDueAt`, the quest IS due one day later,
where the claim says it is treated as not due. -/
theorem normalizeDefault_counterexample :
    (normalizeQuestDoc (fun _ => JSDate.invalid)
      { lastCompletedAt := .jsDate (.valid 0) }).frequencyType = some "daily" ∧
    isQuestDue 0 (fun _ => JSDate.invalid)
      (normalizeQuestDoc (fun _ => JSDate.invalid)
        { lastCompletedAt := .jsDate (.valid 0) }) 86400000 = true := by
  constructor
  · rfl
  · decide

/-- C8 (amended): a quest document with neither frequency field is
normalized to `frequencyType = "daily"` (the `"once"` fallback inside
`isQuestDue` is only reachable for quests that bypass normalization), so
with a recorded valid `lastCompletedAt` and no `nextDueAt` the quest is
due again exactly when the local calendar day of `now` is strictly after
that of the completion. -/
theorem normalizeDefault_spec (off : Int) (parse : String → JSDate)
    (d : QuestDoc) (now t : Int)
    (h1 : d.frequencyType = none) (h2 : d.frequency = none) :
    (normalizeQuestDoc parse d).frequencyType = some "daily" ∧
    (jsFalsy d.nextDueAt = true → d.isActive ≠ some false →
      d.lastCompletedAt = .jsDate (.valid t) →
      (isQuestDue off parse (normalizeQuestDoc parse d) now = true ↔
        localDayIndex off t < localDayIndex off now)) := by
  have hft : (normalizeQuestDoc parse d).frequencyType = some "daily" := by
    simp [normalizeQuestDoc, h1, h2, strOrD, strOrS]
  refine ⟨hft, ?_⟩
  intro hnd hia hlc
  have hAct : (normalizeQuestDoc parse d).isActive = some (d.isActive.getD true) := rfl
  have hActNe : (normalizeQuestDoc parse d).isActive ≠ some false := by
    rw [hAct]
    simp only [ne_eq, Option.some.injEq]
    cases hA : d.isActive with
    | none => simp
    | some b =>
      simp only [Option.getD_some]
      intro hb
      exact hia (by rw [hA, hb])
  have hNext : (normalizeQuestDoc parse d).nextDueAt = JSTimeValue.jsNull := by
    simp [normalizeQuestDoc, hnd]
  have hLast : (normalizeQuestDoc parse d).lastCompletedAt =
      JSTimeValue.jsDate (JSDate.valid t) := by
    simp [normalizeQuestDoc, hlc, jsOrV, jsFalsy, coerceDate]
  have hRes : strOrD (normalizeQuestDoc parse d).frequencyType
      (strOrD (normalizeQuestDoc parse d).frequency "once") = "daily" := by
    rw [hft]; rfl
  exact isQuestDue_daily_lastValid off parse (normalizeQuestDoc parse d) now t
    hActNe (by rw [hNext]; rfl) hRes hLast

/-- C8 amended-claim witness. -/
theorem normalizeDefault_spec_witness :
    isQuestDue 0 (fun _ => JSDate.invalid)
      (normalizeQuestDoc (fun _ => JSDate.invalid)
        { lastCompletedAt := .jsDate (.valid 0), isActive := some true })
      86400000 = true := by
  have h := (normalizeDefault_spec 0 (fun _ => JSDate.invalid)
    { lastCompletedAt := .jsDate (.valid 0), isActive := some true }
    86400000 0 rfl rfl).2 (by decide) (by decide) rfl
  exact h.mpr (by decide)

/-- C4: `calculateNextDueAt` returns `fromDate` unchanged for `"once"` and
any unrecognized type; advances `fromDate` by `n` calendar days for
`"daily"` and `7·n` for `"weekly"` (with a fixed local offset, exactly
`n`, resp. `7·n`, times 86 400 000 ms); and for `"monthly"` advances the
linear month index by `n` with day-of-month carried over and standard
calendar rollover (`advanceMonths`). -/
theorem calculateNextDueAt_spec (off n d : Int) :
    (∀ ft, ft ≠ "daily" → ft ≠ "weekly" → ft ≠ "monthly" →
      calculateNextDueAt off ft n d = d) ∧
    calculateNextDueAt off "daily" n d = d + n * 86400000 ∧
    calculateNextDueAt off "weekly" n d = d + 7 * n * 86400000 ∧
    calculateNextDueAt off "monthly" n d = advanceMonths off n d := by
  refine ⟨?_, ?_, ?_, ?_⟩
  · intro ft h1 h2 h3
    unfold calculateNextDueAt
    by_cases ho : ft = "once"
    · rw [if_pos ho]
    · rw [if_neg ho, if_neg h1, if_neg h2, if_neg h3]
  · unfold calculateNextDueAt
    rw [if_neg (by decide), if_pos rfl, jsSetDate_add]
    rfl
  · unfold calculateNextDueAt
    rw [if_neg (by decide), if_neg (by decide), if_pos rfl, jsSetDate_add]
    unfold msPerDay
    ring
  · unfold calculateNextDueAt
    rw [if_neg (by decide), if_neg (by decide), if_neg (by decide), if_pos rfl,
      jsSetMonth_eq_advanceMonths]

/-- C4 witness: `"once"` passthrough, and the documented
Jan 31 2025 + 1 month rollover to Mar 3 2025 (UTC instants). -/
theorem calculateNextDueAt_spec_witness :
    calculateNextDueAt 0 "once" 5 123456 = 123456 ∧
    calculateNextDueAt 0 "monthly" 1 1738281600000 = 1740960000000 :=
  ⟨(calculateNextDueAt_spec 0 5 123456).1 "once" (by decide) (by decide) (by decide),
   ((calculateNextDueAt_spec 0 1 1738281600000).2.2.2).trans (by decide)⟩

/-- C9: the two next-due-date implementations agree for every interval and
every instant (under the fixed-offset local-time model):
the millisecond arithmetic of `getDueDateFromNow` for `"days"`/`"weeks"`
coincides with the `setDate` calendar arithmetic of `calculateNextDueAt` for
`"daily"`/`"weekly"`, both use the same `setMonth` arithmetic for months,
and both return the base date for `"once"`. -/
theorem dueDateImpls_agree (off n d : Int) :
    getDueDateFromNow off "days" n d = calculateNextDueAt off "daily" n d ∧
    getDueDateFromNow off "weeks" n d = calculateNextDueAt off "weekly" n d ∧
    getDueDateFromNow off "months" n d = calculateNextDueAt off "monthly" n d ∧
    getDueDateFromNow off "once" n d = calculateNextDueAt off "once" n d := by
  unfold getDueDateFromNow calculateNextDueAt
  refine ⟨?_, ?_, ?_, ?_⟩
  · rw [if_pos rfl, if_neg (by decide), if_pos rfl, jsSetDate_add]
    unfold msPerDay
    ring
  · rw [if_neg (by decide), if_pos rfl, if_neg (by decide), if_neg (by decide),
      if_pos rfl, jsSetDate_add]
    unfold msPerDay
    ring
  · rw [if_neg (by decide), if_neg (by decide), if_pos rfl, if_neg (by decide),
      if_neg (by decide), if_neg (by decide), if_pos rfl]
  · rw [if_neg (by decide), if_neg (by decide), if_neg (by decide), if_pos rfl]

end Meowtivator
